import Mathlib

/-
Verification of the hebel neural-network training engine
(`neural_nets/models.py`) via a shallow embedding.

Modelling conventions:
  * GPU tensors are embedded as `List (List ℚ)` (matrices, row major) and
    `List ℚ` (vectors).  Float32 rounding is abstracted away: arithmetic is
    exact rational arithmetic.
  * IEEE NaN only matters for target tensors (the code's `nan_to_zeros`
    defence); target matrices are therefore embedded with `Option ℚ` entries,
    `none` standing for NaN.
  * External collaborators (pycuda / scikits.cuda BLAS kernels, curand random
    generation, the transcendental activation kernels, softmax and
    cross-entropy, `math.sqrt`) are not part of the repository source.  They
    are threaded through every definition as an `Ops` record of abstract
    functions, so every theorem holds for every choice of collaborators.
  * Python exceptions (AssertionError, IndexError, TypeError, NameError,
    ValueError) are embedded as `Except String` errors.
-/

namespace Hebel

abbrev Vec := List ℚ
abbrev Mat := List (List ℚ)
/-- Target matrices: entries are `Option ℚ`, `none` modelling an IEEE NaN. -/
abbrev TMat := List (List (Option ℚ))

/-- Number of columns of a matrix (`shape[1]`), read off the first row;
numpy arrays are rectangular so this is the column count. -/
def matCols (m : Mat) : ℕ := (m.headD []).length

/-- Row lengths of a matrix; two matrices have the same shape iff their
`dims` agree. -/
def dims (m : Mat) : List ℕ := m.map List.length

/-- Entry of a matrix at row `i`, column `j`, defaulting to `0` out of range. -/
def entry (m : Mat) (i j : ℕ) : ℚ := (((m.get? i).getD []).get? j).getD 0

/-- Dot product of two equal-length vectors. -/
def dotVec (r s : Vec) : ℚ := (List.zipWith (· * ·) r s).sum

/-- Matrix transpose (external BLAS collaborator, standard meaning). -/
def transpose (m : Mat) : Mat :=
  (List.range (matCols m)).map fun j => m.map fun r => (r.get? j).getD 0

/-- Matrix product `A · B` (external `linalg.dot` collaborator). -/
def matMul (a b : Mat) : Mat :=
  a.map fun r => (transpose b).map fun c => dotVec r c

/-- Modelled from the spec: `add_vec_to_mat` (pycuda_ops.matrix, not under
src/) broadcast-adds a vector across the rows of a matrix. -/
def addVecToMat (m : Mat) (v : Vec) : Mat :=
  m.map fun r => List.zipWith (· + ·) r v

/-- Modelled from the spec: `matrix_sum_out_axis(m, 0)`
(pycuda_ops.reductions, not under src/) sums a matrix along axis 0,
producing the vector of column sums. -/
def colSums (m : Mat) : Vec := (transpose m).map List.sum

/-- Elementwise map over a matrix (the elementwise activation kernels). -/
def emap (f : ℚ → ℚ) (m : Mat) : Mat := m.map (List.map f)

/-- Elementwise product of two matrices. -/
def emul (a b : Mat) : Mat := List.zipWith (List.zipWith (· * ·)) a b

/-- Elementwise sum of two matrices (in-place accumulation collaborator). -/
def madd (a b : Mat) : Mat := List.zipWith (List.zipWith (· + ·)) a b

/-- Elementwise difference of two matrices. -/
def msub (a b : Mat) : Mat := List.zipWith (List.zipWith (· - ·)) a b

/-- Scalar multiple of a matrix. -/
def smulM (w : ℚ) (m : Mat) : Mat := emap (w * ·) m

/-- Elementwise sum of two vectors. -/
def vadd (a b : Vec) : Vec := List.zipWith (· + ·) a b

/-- Scalar multiple of a vector. -/
def smulV (w : ℚ) (v : Vec) : Vec := v.map (w * ·)

/-- Modelled from the spec: elementwise `sign` kernel
(pycuda_ops.elementwise, not under src/). -/
def signQ (x : ℚ) : ℚ := if 0 < x then 1 else if x < 0 then -1 else 0

/-- Elementwise sign of a matrix. -/
def signM (m : Mat) : Mat := emap signQ m

/-- Zero matrix with the shape of `m` (`gpuarray.zeros_like`). -/
def zerosLike (m : Mat) : Mat := m.map fun r => r.map fun _ => 0

/-- Sum of absolute values of all entries (for the L1 penalty). -/
def sumAbs (m : Mat) : ℚ := (m.map fun r => (r.map abs).sum).sum

/-- Sum of squared entries (for the L2 penalty). -/
def sumSq (m : Mat) : ℚ := (m.map fun r => (r.map fun x => x * x).sum).sum

/-- Modelled from the spec: `nan_to_zeros` (pycuda_ops.elementwise, not
under src/) replaces every NaN entry by zero, keeping the other entries. -/
def nanToZeros (m : TMat) : Mat := m.map fun r => r.map fun x => x.getD 0

/-- Elementwise difference `activations - targets` where the targets may
contain NaN; an entry with a NaN target is NaN (NaN propagates through
subtraction). -/
def matSubT (acts : Mat) (targets : TMat) : TMat :=
  List.zipWith (List.zipWith fun a t => t.map fun x => a - x) acts targets

/-- Modelled from the spec: the external elementwise relu kernel,
`relu(x) = max(x, 0)`. -/
def reluF (x : ℚ) : ℚ := max x 0

/-- Modelled from the spec: derivative kernel of relu. -/
def dfReluF (x : ℚ) : ℚ := if 0 < x then 1 else 0

/-- Modelled from the spec: the external linear (identity) kernel. -/
def linearF (x : ℚ) : ℚ := x

/-- Modelled from the spec: derivative kernel of the linear activation. -/
def dfLinearF (_ : ℚ) : ℚ := 1

/-- The external collaborators of the engine (pycuda kernels, random
generation, math.sqrt, softmax/cross-entropy).  The repository only uses
their interfaces, so all definitions are parametrised by such a record. -/
structure Ops where
  /-- elementwise sigmoid kernel -/
  sigmoidF : ℚ → ℚ
  /-- derivative kernel of sigmoid -/
  dfSigmoidF : ℚ → ℚ
  /-- elementwise tanh kernel -/
  tanhF : ℚ → ℚ
  /-- derivative kernel of tanh -/
  dfTanhF : ℚ → ℚ
  /-- math.sqrt / np.sqrt -/
  sqrtF : ℚ → ℚ
  /-- curand: a fresh uniform random matrix of the requested shape -/
  rand : ℕ → ℕ → Mat
  /-- sample_dropout_mask: the sampled binary mask for given activations -/
  dropoutMask : Mat → Mat
  /-- softmax kernel (row-stochastic normalisation) -/
  softmaxF : Mat → Mat
  /-- cross_entropy kernel, summed over the batch (average=False path) -/
  crossEntropyF : Mat → TMat → ℚ

/-- `HiddenLayer._resolve_activation_fct`: string-keyed dispatch to the
(forward, derivative) kernel pair; unknown names raise ValueError (`none`). -/
def resolveActivation (ops : Ops) : String → Option ((ℚ → ℚ) × (ℚ → ℚ))
  | "sigmoid" => some (ops.sigmoidF, ops.dfSigmoidF)
  | "tanh" => some (ops.tanhF, ops.dfTanhF)
  | "relu" => some (reluF, dfReluF)
  | "linear" => some (linearF, dfLinearF)
  | _ => none

/-- A flat parameter (or gradient) entry: a weight matrix or a bias vector. -/
inductive Tensor where
  | mat (m : Mat)
  | vec (v : Vec)
deriving DecidableEq

/-- The `HiddenLayer` object.  The Python object stores the resolved kernel
pair `self.f, self.df`; since resolution (`_resolve_activation_fct`) is pure,
the embedding stores the validated `activation_function` name and resolves
on use, which is observationally identical and keeps equality decidable. -/
structure HiddenLayer where
  n_in : ℕ
  n_units : ℕ
  W : Mat
  b : Vec
  activation_function : String
  dropout : Bool
  l1_penalty_weight : ℚ
  l2_penalty_weight : ℚ
  lr_multiplier : List ℚ
deriving DecidableEq

/-- The resolved forward kernel of a hidden layer (`self.f`). -/
def HiddenLayer.fF (ops : Ops) (hl : HiddenLayer) : ℚ → ℚ :=
  ((resolveActivation ops hl.activation_function).map Prod.fst).getD id

/-- The resolved derivative kernel of a hidden layer (`self.df`). -/
def HiddenLayer.dfF (ops : Ops) (hl : HiddenLayer) : ℚ → ℚ :=
  ((resolveActivation ops hl.activation_function).map Prod.snd).getD id

/-- `HiddenLayer.feed_forward`: activations = f(input·W + b); with dropout
at prediction time the activations are halved, with dropout at training time
a mask is sampled, multiplied in, and returned as part of the cache. -/
def HiddenLayer.feedForward (ops : Ops) (hl : HiddenLayer) (input : Mat)
    (prediction : Bool) : List Mat :=
  let a := matMul input hl.W
  let a := addVecToMat a hl.b
  let activations := emap (hl.fF ops) a
  let activations := if hl.dropout && prediction then smulM (1/2) activations
    else activations
  if hl.dropout && !prediction then
    let mask := ops.dropoutMask activations
    [emul mask activations, mask]
  else [activations]

/-- `HiddenLayer.backprop`.  The `cache=None` branch executes
`self.feed_forward(input, dropout=self.dropout, prediction=False)`, but
`feed_forward` has no `dropout` parameter, so the call raises TypeError
before anything else happens; the branch is embedded as that error.  With a
2-element cache the dropout mask is applied to the incoming gradient; with a
1-element cache under `self.dropout` the local `dropout_mask` is unbound and
the mask test raises NameError. -/
def HiddenLayer.backprop (ops : Ops) (hl : HiddenLayer) (input df_output : Mat)
    (cache : Option (List Mat)) : Except String ((Mat × Vec) × Mat) := do
  let (activations, df_out) ←
    match cache with
    | none => Except.error "TypeError: feed_forward got an unexpected keyword argument dropout"
    | some [] => Except.error "IndexError: tuple index out of range"
    | some (a :: rest) =>
      if rest.length = 1 then
        -- activations, dropout_mask = cache
        if hl.dropout then Except.ok (a, emul df_output (rest.headD []))
        else Except.ok (a, df_output)
      else
        -- activations = cache[0]; dropout_mask is unbound
        if hl.dropout then Except.error "NameError: name dropout_mask is not defined"
        else Except.ok (a, df_output)
  let df_activations := emap (hl.dfF ops) activations
  let delta := emul df_activations df_out
  let df_W := matMul (transpose input) delta
  let df_b := colSums delta
  let df_input := matMul delta (transpose hl.W)
  let df_W := if hl.l1_penalty_weight ≠ 0 then
      msub df_W (smulM hl.l1_penalty_weight (signM hl.W)) else df_W
  let df_W := if hl.l2_penalty_weight ≠ 0 then
      msub df_W (smulM hl.l2_penalty_weight hl.W) else df_W
  return ((df_W, df_b), df_input)

/-- `HiddenLayer.update_parameters`: asserts `len(values) == 2`
(n_parameters) then applies `param := 1·param + mult·gradient` in place to
the weight group and the bias group independently; a gradient whose kind or
shape does not match its parameter group fails in the `_axpbyz` kernel. -/
def HiddenLayer.updateParameters (hl : HiddenLayer) (values : List (Tensor × ℚ)) :
    Except String HiddenLayer :=
  if values.length ≠ 2 then Except.error "AssertionError"
  else match values with
    | [(Tensor.mat gW, mW), (Tensor.vec gb, mb)] =>
      if dims gW = dims hl.W ∧ gb.length = hl.b.length then
        Except.ok { hl with W := madd hl.W (smulM mW gW), b := vadd hl.b (smulV mb gb) }
      else Except.error "shape mismatch in axpbyz"
    | _ => Except.error "shape mismatch in axpbyz"

/-- `HiddenLayer.l1_penalty = l1_penalty_weight * sum(|W|)`. -/
def HiddenLayer.l1Penalty (hl : HiddenLayer) : ℚ :=
  hl.l1_penalty_weight * sumAbs hl.W

/-- `HiddenLayer.l2_penalty = l2_penalty_weight * 0.5 * sum(W**2)`. -/
def HiddenLayer.l2Penalty (hl : HiddenLayer) : ℚ :=
  hl.l2_penalty_weight * (1/2) * sumSq hl.W

/-- A hidden-stack layer: a `HiddenLayer` or the parameterless `DummyLayer`
(which stores only its width, with `n_units = n_in`). -/
inductive Layer where
  | hidden (hl : HiddenLayer)
  | dummy (n_in : ℕ)
deriving DecidableEq

/-- `n_in` of a layer. -/
def Layer.nIn : Layer → ℕ
  | .hidden hl => hl.n_in
  | .dummy n => n

/-- `n_units` of a layer (`DummyLayer` sets `n_units = n_in`). -/
def Layer.nUnits : Layer → ℕ
  | .hidden hl => hl.n_units
  | .dummy n => n

/-- `n_parameters`: 2 for a hidden layer, 0 for a dummy layer. -/
def Layer.nParameters : Layer → ℕ
  | .hidden _ => 2
  | .dummy _ => 0

/-- `lr_multiplier` of a layer (class attribute `[]` for `DummyLayer`). -/
def Layer.lrMultiplier : Layer → List ℚ
  | .hidden hl => hl.lr_multiplier
  | .dummy _ => []

/-- The `parameters` property: `(W, b)` for a hidden layer, `[]` for a
dummy layer. -/
def Layer.getParams : Layer → List Tensor
  | .hidden hl => [Tensor.mat hl.W, Tensor.vec hl.b]
  | .dummy _ => []

/-- The `parameters` setter: `W = value[0]; b = value[1]` for a hidden
layer, a no-op (`pass`) for a dummy layer.  The GPU/host transfer in the
Python setter preserves values and is dropped.  Slot kinds are typed in the
embedding, so a slice whose kinds do not match the `(W, b)` slots keeps the
old slot (such mis-kinded writes are outside the embedding). -/
def Layer.setParams : Layer → List Tensor → Layer
  | .hidden hl, Tensor.mat m :: Tensor.vec v :: _ => .hidden { hl with W := m, b := v }
  | .hidden hl, _ => .hidden hl
  | .dummy n, _ => .dummy n

/-- `Layer.feed_forward`: dispatches to `HiddenLayer.feed_forward`, or for a
dummy layer asserts `input.shape[1] == n_in` and returns `(input,)`. -/
def Layer.feedForward (ops : Ops) (l : Layer) (input : Mat) (prediction : Bool) :
    Except String (List Mat) :=
  match l with
  | .hidden hl => Except.ok (hl.feedForward ops input prediction)
  | .dummy n =>
    if matCols input = n then Except.ok [input]
    else Except.error "AssertionError"

/-- `Layer.backprop`, with the gradient tuple flattened to tensors in the
source order `(df_W, df_b)`; a dummy layer returns `(tuple(), df_output)`. -/
def Layer.backprop (ops : Ops) (l : Layer) (input df_output : Mat)
    (cache : Option (List Mat)) : Except String (List Tensor × Mat) :=
  match l with
  | .hidden hl => do
    let ((df_W, df_b), df_input) ← hl.backprop ops input df_output cache
    return ([Tensor.mat df_W, Tensor.vec df_b], df_input)
  | .dummy _ => Except.ok ([], df_output)

/-- `Layer.update_parameters`: the hidden-layer update, or the `DummyLayer`
override, which is `pass` — it ignores its arguments and never fails. -/
def Layer.updateParameters (l : Layer) (values : List (Tensor × ℚ)) :
    Except String Layer :=
  match l with
  | .hidden hl => (hl.updateParameters values).map .hidden
  | .dummy n => Except.ok (.dummy n)

/-- `Layer.l1_penalty` (`0.` for a dummy layer). -/
def Layer.l1Penalty : Layer → ℚ
  | .hidden hl => hl.l1Penalty
  | .dummy _ => 0

/-- `Layer.l2_penalty` (`0.` for a dummy layer). -/
def Layer.l2Penalty : Layer → ℚ
  | .hidden hl => hl.l2Penalty
  | .dummy _ => 0

/-- The `LogisticLayer` output head (softmax + cross-entropy). -/
structure LogisticLayer where
  n_in : ℕ
  n_out : ℕ
  W : Mat
  b : Vec
  l1_penalty_weight : ℚ
  l2_penalty_weight : ℚ
  lr_multiplier : List ℚ
  test_error_fct : String
deriving DecidableEq

/-- `LogisticLayer.feed_forward`: softmax(input·W + b); `prediction` is
accepted but unused. -/
def LogisticLayer.feedForward (ops : Ops) (ll : LogisticLayer) (input : Mat)
    (_prediction : Bool) : Mat :=
  ops.softmaxF (addVecToMat (matMul input ll.W) ll.b)

/-- The backprop error signal of the logistic head:
`delta = activations - targets` followed by `nan_to_zeros(delta, delta)`. -/
def logisticDelta (activations : Mat) (targets : TMat) : Mat :=
  nanToZeros (matSubT activations targets)

/-- `LogisticLayer.backprop`: `delta = nan_to_zeros(activations - targets)`,
then `df_W = inputᵀ·delta`, `df_b = column_sums(delta)`,
`df_input = delta·Wᵀ`, with the L1/L2 decay subtractions. -/
def LogisticLayer.backprop (ops : Ops) (ll : LogisticLayer) (input : Mat)
    (targets : TMat) (cache : Option Mat) : (Mat × Vec) × Mat :=
  let activations := match cache with
    | some c => c
    | none => ll.feedForward ops input false
  let delta := logisticDelta activations targets
  let df_W := matMul (transpose input) delta
  let df_b := colSums delta
  let df_input := matMul delta (transpose ll.W)
  let df_W := if ll.l1_penalty_weight ≠ 0 then
      msub df_W (smulM ll.l1_penalty_weight (signM ll.W)) else df_W
  let df_W := if ll.l2_penalty_weight ≠ 0 then
      msub df_W (smulM ll.l2_penalty_weight ll.W) else df_W
  ((df_W, df_b), df_input)

/-- `np.argmax` over one row: index of the first occurrence of the maximum. -/
def argmaxAux : List ℚ → ℕ → ℕ → ℚ → ℕ
  | [], _, best, _ => best
  | x :: xs, i, best, bestv =>
    if bestv < x then argmaxAux xs (i + 1) i x else argmaxAux xs (i + 1) best bestv

/-- `np.argmax` of a row (0 on an empty row). -/
def argmax : List ℚ → ℕ
  | [] => 0
  | x :: xs => argmaxAux xs 1 0 x

/-- Modelled from numpy semantics: `.mean()` of the zero-dimensional scalar
produced by `np.sum` is the scalar itself (no division by the row count). -/
def npScalarMean (x : ℚ) : ℚ := x

/-- `LogisticLayer.class_error`: per-row argmax comparison; the mismatch
count is produced by `np.sum`, and the `average` branch calls `.mean()` on
that scalar. -/
def LogisticLayer.classError (ops : Ops) (ll : LogisticLayer) (input : Mat)
    (targets : Mat) (average : Bool) (cache : Option Mat) (prediction : Bool) : ℚ :=
  let activations := match cache with
    | some c => c
    | none => ll.feedForward ops input prediction
  let t := targets.map argmax
  let classError : ℕ := ((activations.map argmax).zip t).countP fun p => p.1 ≠ p.2
  if average then npScalarMean (classError : ℚ) else (classError : ℚ)

/-- `LogisticLayer.update_parameters` (inherited from `HiddenLayer`,
`n_parameters = 2`). -/
def LogisticLayer.updateParameters (ll : LogisticLayer) (values : List (Tensor × ℚ)) :
    Except String LogisticLayer :=
  if values.length ≠ 2 then Except.error "AssertionError"
  else match values with
    | [(Tensor.mat gW, mW), (Tensor.vec gb, mb)] =>
      if dims gW = dims ll.W ∧ gb.length = ll.b.length then
        Except.ok { ll with W := madd ll.W (smulM mW gW), b := vadd ll.b (smulV mb gb) }
      else Except.error "shape mismatch in axpbyz"
    | _ => Except.error "shape mismatch in axpbyz"

/-- The `parameters` property of the head, as flat tensors `(W, b)`. -/
def LogisticLayer.getParams (ll : LogisticLayer) : List Tensor :=
  [Tensor.mat ll.W, Tensor.vec ll.b]

/-- The `parameters` setter of the head (kind-correct slices; see
`Layer.setParams`). -/
def LogisticLayer.setParams : LogisticLayer → List Tensor → LogisticLayer
  | ll, Tensor.mat m :: Tensor.vec v :: _ => { ll with W := m, b := v }
  | ll, _ => ll

/-- `LogisticLayer.l1_penalty` (inherited). -/
def LogisticLayer.l1Penalty (ll : LogisticLayer) : ℚ :=
  ll.l1_penalty_weight * sumAbs ll.W

/-- `LogisticLayer.l2_penalty` (inherited). -/
def LogisticLayer.l2Penalty (ll : LogisticLayer) : ℚ :=
  ll.l2_penalty_weight * (1/2) * sumSq ll.W

/-- `LogisticLayer.__init__` on the fresh-parameter path:
Bengio-rule weight scale `4·sqrt(6/(n_in+n_out))`, uniform weights
`scale·rand - scale/2`, zero bias, default `lr_multiplier =
2*[1/sqrt(n_in)]`. -/
def logisticInit (ops : Ops) (n_in n_out : ℕ) (l1_penalty_weight l2_penalty_weight : ℚ)
    (test_error_fct : String) : LogisticLayer :=
  let weights_scale := 4 * ops.sqrtF (6 / ((n_in : ℚ) + (n_out : ℚ)))
  { n_in := n_in
    n_out := n_out
    W := emap (fun x => x - (1/2) * weights_scale) (smulM weights_scale (ops.rand n_in n_out))
    b := List.replicate n_out 0
    l1_penalty_weight := l1_penalty_weight
    l2_penalty_weight := l2_penalty_weight
    lr_multiplier := [1 / ops.sqrtF (n_in : ℚ), 1 / ops.sqrtF (n_in : ℚ)]
    test_error_fct := test_error_fct }

/-- The `MultitaskTopLayer` output head: a sequence of logistic tasks with
per-task weights. -/
structure MultitaskTopLayer where
  tasks : List LogisticLayer
  task_weights : List ℚ
deriving DecidableEq

/-- Four-way `izip` (shortest-list semantics). -/
def zip4 : List α → List β → List γ → List δ → List (α × β × γ × δ)
  | a :: as, b :: bs, c :: cs, d :: ds => (a, b, c, d) :: zip4 as bs cs ds
  | _, _, _, _ => []

/-- The per-task cache list: a supplied cache, or `n_tasks * [None]`. -/
def mtCaches (tl : MultitaskTopLayer) (cache : Option (List (Option Mat))) :
    List (Option Mat) :=
  cache.getD (List.replicate tl.tasks.length none)

/-- `MultitaskTopLayer.backprop`: one loop over
`izip(targets, cache, tasks, task_weights)` that extends the flat gradient
list with each task's `(df_W, df_b)` and accumulates
`df_input := 1·df_input + task_weight·df_input_task` into a tensor
initialised to `zeros_like(input)`. -/
def MultitaskTopLayer.backprop (ops : Ops) (tl : MultitaskTopLayer) (input : Mat)
    (targets : List TMat) (cache : Option (List (Option Mat))) :
    List Tensor × Mat :=
  (zip4 targets (mtCaches tl cache) tl.tasks tl.task_weights).foldl
    (fun acc q =>
      let (gs, dfi) := LogisticLayer.backprop ops q.2.2.1 input q.1 q.2.1
      (acc.1 ++ [Tensor.mat gs.1, Tensor.vec gs.2], madd acc.2 (smulM q.2.2.2 dfi)))
    ([], zerosLike input)

/-- The `NeuralNet` container: an ordered hidden-layer stack and one
logistic output head (the default `TopLayerClass`).  The derived attributes
the constructor stores (`n_layers`, `n_units_hidden`, `n_parameters`,
`lr_multiplier`, `n_out`) are functions of these two fields and are embedded
as such. -/
structure NeuralNet where
  hidden_layers : List Layer
  top_layer : LogisticLayer
deriving DecidableEq

/-- `self.n_layers = len(layers)`. -/
def NeuralNet.nLayers (nn : NeuralNet) : ℕ := nn.hidden_layers.length

/-- `self.n_parameters = sum(hl.n_parameters) + top_layer.n_parameters`. -/
def NeuralNet.nParameters (nn : NeuralNet) : ℕ :=
  (nn.hidden_layers.map Layer.nParameters).sum + 2

/-- `self.lr_multiplier`: the flat concatenation of every hidden layer's
`lr_multiplier` followed by the output head's. -/
def NeuralNet.lrMultiplier (nn : NeuralNet) : List ℚ :=
  (nn.hidden_layers.map Layer.lrMultiplier).flatten ++ nn.top_layer.lr_multiplier

/-- The `parameters` getter: every hidden layer's parameters in order, then
the output head's. -/
def NeuralNet.getParameters (nn : NeuralNet) : List Tensor :=
  (nn.hidden_layers.map Layer.getParams).flatten ++ nn.top_layer.getParams

/-- The slicing loop of the `parameters` setter: layer `i` receives
`value[i:i+hl.n_parameters]` and `i` advances by `hl.n_parameters`. -/
def setHiddenParams : List Layer → List Tensor → List Layer
  | [], _ => []
  | l :: ls, v =>
    l.setParams (v.take l.nParameters) :: setHiddenParams ls (v.drop l.nParameters)

/-- The `parameters` setter: raises ValueError unless the flat sequence has
length `n_parameters`, then distributes consecutive slices to the hidden
layers and the final `value[-top_layer.n_parameters:]` slice to the head. -/
def NeuralNet.setParameters (nn : NeuralNet) (v : List Tensor) :
    Except String NeuralNet :=
  if v.length ≠ nn.nParameters then
    Except.error "ValueError: Incorrect length of parameter vector"
  else
    Except.ok
      { hidden_layers := setHiddenParams nn.hidden_layers v
        top_layer := nn.top_layer.setParams (v.drop (v.length - 2)) }

/-- The forward loop of `NeuralNet.feed_forward`: layer `i+1` consumes
`hidden_cache[i][0]`; the per-layer caches are collected in order. -/
def runHidden (ops : Ops) : List Layer → Mat → Bool → Except String (List (List Mat))
  | [], _, _ => Except.ok []
  | l :: ls, input, prediction => do
    let c ← l.feedForward ops input prediction
    let rest ← runHidden ops ls (c.headD []) prediction
    return c :: rest

/-- `NeuralNet.feed_forward` with `return_cache=True`.  When
`hidden_layers` is empty, `hidden_cache` is never assigned and the
`return activations, hidden_cache` statement raises NameError. -/
def NeuralNet.feedForwardCache (ops : Ops) (nn : NeuralNet) (input : Mat)
    (prediction : Bool) : Except String (Mat × List (List Mat)) :=
  match nn.hidden_layers with
  | [] => Except.error "NameError: name hidden_cache is not defined"
  | _ => do
    let hidden_cache ← runHidden ops nn.hidden_layers input prediction
    let hidden_activations := (hidden_cache.getLastD []).headD []
    return (nn.top_layer.feedForward ops hidden_activations prediction, hidden_cache)

/-- `NeuralNet.feed_forward` with `return_cache=False`: an empty hidden
stack passes the input directly to the output head. -/
def NeuralNet.feedForward (ops : Ops) (nn : NeuralNet) (input : Mat)
    (prediction : Bool) : Except String Mat :=
  match nn.hidden_layers with
  | [] => Except.ok (nn.top_layer.feedForward ops input prediction)
  | _ => do
    let hidden_cache ← runHidden ops nn.hidden_layers input prediction
    return nn.top_layer.feedForward ops ((hidden_cache.getLastD []).headD []) prediction

/-- `l1_penalty_weight` of a layer (class attribute `0.` for `DummyLayer`). -/
def Layer.l1PenaltyWeight : Layer → ℚ
  | .hidden hl => hl.l1_penalty_weight
  | .dummy _ => 0

/-- `l2_penalty_weight` of a layer (class attribute `0.` for `DummyLayer`). -/
def Layer.l2PenaltyWeight : Layer → ℚ
  | .hidden hl => hl.l2_penalty_weight
  | .dummy _ => 0

/-- `NeuralNet.evaluate` with `return_cache=True`: unaveraged cross-entropy
of the forward activations plus every component's L1/L2 penalty (each added
only when its weight is truthy, i.e. nonzero). -/
def NeuralNet.evaluate (ops : Ops) (nn : NeuralNet) (input : Mat) (targets : TMat)
    (prediction : Bool) : Except String (ℚ × List (List Mat) × Mat) := do
  let (activations, hidden_cache) ← nn.feedForwardCache ops input prediction
  let loss := ops.crossEntropyF activations targets
  let loss := loss + (nn.hidden_layers.map fun hl =>
    (if hl.l1PenaltyWeight ≠ 0 then hl.l1Penalty else 0) +
    (if hl.l2PenaltyWeight ≠ 0 then hl.l2Penalty else 0)).sum
  let loss := loss +
    (if nn.top_layer.l1_penalty_weight ≠ 0 then nn.top_layer.l1Penalty else 0) +
    (if nn.top_layer.l2_penalty_weight ≠ 0 then nn.top_layer.l2Penalty else 0)
  return (loss, hidden_cache, activations)

/-- The backpropagation loop of `training_pass`, over
`zip(hidden_layers[::-1], hidden_cache[::-1], hidden_inputs[::-1])`:
each step appends the layer's reversed gradient tuple to the running list
and threads the new upstream gradient. -/
def trainingLoop (ops : Ops) :
    List (Layer × List Mat × Mat) → List Tensor → Mat →
    Except String (List Tensor × Mat)
  | [], grads, df => Except.ok (grads, df)
  | (hl, hc, hi) :: rest, grads, df => do
    let (g, df') ← hl.backprop ops hi df (some hc)
    trainingLoop ops rest (grads ++ g.reverse) df'

/-- Three-way `zip` (shortest-list semantics). -/
def zip3 : List α → List β → List γ → List (α × β × γ)
  | a :: as, b :: bs, c :: cs => (a, b, c) :: zip3 as bs cs
  | _, _, _ => []

/-- The `hidden_inputs` list of `training_pass`:
`[input] + [c[0] for c in hidden_cache[:-1]]`. -/
def hiddenInputs (input : Mat) (hidden_cache : List (List Mat)) : List Mat :=
  input :: hidden_cache.dropLast.map (List.headD · [])

/-- `NeuralNet.training_pass`: evaluate in training mode, backpropagate
through the output head, seed `gradients` with the head's reversed gradient
tuple, walk the hidden layers in reverse extending `gradients` with each
reversed gradient tuple, and finally reverse the whole list. -/
def NeuralNet.trainingPass (ops : Ops) (nn : NeuralNet) (input : Mat)
    (targets : TMat) : Except String (ℚ × List Tensor) := do
  let (loss, hidden_cache, logistic_cache) ← nn.evaluate ops input targets false
  let hidden_activations := if nn.hidden_layers.isEmpty then input
    else (hidden_cache.getLastD []).headD []
  let df_top_layer :=
    nn.top_layer.backprop ops hidden_activations targets (some logistic_cache)
  let gradients : List Tensor := [Tensor.vec df_top_layer.1.2, Tensor.mat df_top_layer.1.1]
  let df_hidden := df_top_layer.2
  let (gradients, _) ← trainingLoop ops
    (zip3 nn.hidden_layers.reverse hidden_cache.reverse (hiddenInputs input hidden_cache).reverse)
    gradients df_hidden
  return (loss, gradients.reverse)

/-- `HiddenLayer.__init__` on the fresh-parameter path: resolve the
activation name (ValueError when unknown), derive the Glorot-style
`weights_scale` (sigmoid uses 4x the tanh/relu/linear scale), sample
`W = scale·rand - scale/2`, zero the bias, assert the parameter shapes, and
default `lr_multiplier = 2*[1/sqrt(n_in)]`. -/
def hiddenLayerInit (ops : Ops) (n_in n_units : ℕ) (activation_function : String)
    (dropout : Bool) (l1_penalty_weight l2_penalty_weight : ℚ) :
    Except String HiddenLayer := do
  if (resolveActivation ops activation_function).isNone then
    Except.error "ValueError"
  let weights_scale :=
    if activation_function = "tanh" ∨ activation_function = "relu" ∨
       activation_function = "linear" then
      ops.sqrtF (6 / ((n_in : ℚ) + (n_units : ℚ)))
    else 4 * ops.sqrtF (6 / ((n_in : ℚ) + (n_units : ℚ)))
  let W := emap (fun x => x - (1/2) * weights_scale)
    (smulM weights_scale (ops.rand n_in n_units))
  let b : Vec := List.replicate n_units 0
  if dims W ≠ List.replicate n_in n_units then
    Except.error "AssertionError"
  return { n_in := n_in
           n_units := n_units
           W := W
           b := b
           activation_function := activation_function
           dropout := dropout
           l1_penalty_weight := l1_penalty_weight
           l2_penalty_weight := l2_penalty_weight
           lr_multiplier := [1 / ops.sqrtF (n_in : ℚ), 1 / ops.sqrtF (n_in : ℚ)] }

/-- A layer specification passed to `NeuralNet.__init__`: an already-built
`Layer` instance or a bare integer unit-count. -/
inductive LayerSpec where
  | obj (l : Layer)
  | int (n_units : ℕ)

/-- The hidden-layer construction loop of `NeuralNet.__init__`: instances
are appended as given; an integer spec builds a fresh `HiddenLayer` whose
`n_in` is the previously appended layer's `n_units` (`i > 0`), or the `n_in`
argument for the first spec.  The scalar dropout/L1/L2 settings index
uniformly into the broadcast per-layer lists, so the scalar is passed
through directly. -/
def buildHiddenLayers (ops : Ops) (n_in : ℕ) (activation_function : String)
    (dropout : Bool) (l1_penalty_weight l2_penalty_weight : ℚ) :
    List LayerSpec → List Layer → Except String (List Layer)
  | [], acc => Except.ok acc
  | .obj l :: rest, acc =>
    buildHiddenLayers ops n_in activation_function dropout
      l1_penalty_weight l2_penalty_weight rest (acc ++ [l])
  | .int m :: rest, acc => do
    let n_in_hidden := ((acc.getLast?).map Layer.nUnits).getD n_in
    let hl ← hiddenLayerInit ops n_in_hidden m activation_function dropout
      l1_penalty_weight l2_penalty_weight
    buildHiddenLayers ops n_in activation_function dropout
      l1_penalty_weight l2_penalty_weight rest (acc ++ [.hidden hl])

/-- `NeuralNet.__init__` with scalar penalty weights and a scalar dropout
flag: build the hidden stack, build the default logistic head on
`n_units_hidden[-1]` (or `n_in` when the stack is empty) unless an explicit
head is given, then read `self.n_in = self.hidden_layers[0].n_in` — an
access that raises IndexError whenever the hidden stack is empty. -/
def neuralNetInit (ops : Ops) (layers : List LayerSpec)
    (top_layer : Option LogisticLayer) (activation_function : String)
    (dropout : Bool) (n_in n_out : ℕ)
    (l1_penalty_weight l2_penalty_weight : ℚ) : Except String NeuralNet := do
  let hidden_layers ← buildHiddenLayers ops n_in activation_function dropout
    l1_penalty_weight l2_penalty_weight layers []
  let n_units_hidden := hidden_layers.map Layer.nUnits
  let top := match top_layer with
    | some t => t
    | none =>
      logisticInit ops (n_units_hidden.getLastD n_in) n_out
        l1_penalty_weight l2_penalty_weight "class_error"
  -- self.n_in = self.hidden_layers[0].n_in
  let _ ← match hidden_layers.head? with
    | some l => Except.ok l.nIn
    | none => Except.error "IndexError: list index out of range"
  return { hidden_layers := hidden_layers, top_layer := top }

/-- Reference formulation of the spec sentence on gradient ordering: walk
the hidden layers back-to-front threading the upstream gradient (as the
backward pass does), but collect each layer's gradient block in declaration
order, front of the network first. -/
def backwardBlocks (ops : Ops) :
    List Layer → List (List Mat) → List Mat → Mat →
    Except String (List (List Tensor) × Mat)
  | l :: ls, c :: cs, i :: is, df => do
    let (bs, dfm) ← backwardBlocks ops ls cs is df
    let (g, df') ← l.backprop ops i dfm (some c)
    return (g :: bs, df')
  | _, _, _, df => Except.ok ([], df)

/-- The output head's backprop as `training_pass` performs it: seeded with
the last hidden cache's activations (the head's input) and the forward
activations of the same pass as the cache. -/
def topBackprop (ops : Ops) (nn : NeuralNet) (hidden_cache : List (List Mat))
    (targets : TMat) : (Mat × Vec) × Mat :=
  nn.top_layer.backprop ops ((hidden_cache.getLastD []).headD []) targets
    (some (nn.top_layer.feedForward ops ((hidden_cache.getLastD []).headD []) false))

/-- Targets with every NaN entry replaced by the corresponding predicted
activation — the target for which that entry's error term is exactly zero. -/
def patchNaN (acts : Mat) (targets : TMat) : TMat :=
  List.zipWith (List.zipWith fun a t => some (t.getD a)) acts targets

/-- Kind-correctness of a flat parameter sequence for a hidden stack plus
logistic head: each hidden layer consumes a `[matrix, vector]` pair, a dummy
layer consumes nothing, and exactly a final `[matrix, vector]` pair remains
for the head. -/
def kindsOk : List Layer → List Tensor → Bool
  | Layer.hidden _ :: ls, Tensor.mat _ :: Tensor.vec _ :: v => kindsOk ls v
  | Layer.dummy _ :: ls, v => kindsOk ls v
  | [], [Tensor.mat _, Tensor.vec _] => true
  | _, _ => false

/-- The dimension-chaining property: the first layer's `n_in` is the given
width, and each later layer's `n_in` is the preceding layer's `n_units`. -/
def dimsChainFrom (n : ℕ) : List Layer → Prop
  | [] => True
  | l :: ls => l.nIn = n ∧ dimsChainFrom l.nUnits ls

/-- The output width of a hidden stack fed with `n` input units: the last
layer's `n_units`, or `n` itself for an empty stack. -/
def lastWidth (n : ℕ) : List Layer → ℕ
  | [] => n
  | l :: ls => lastWidth l.nUnits ls

/-- The `df_input` a single task's backprop computes individually on the
shared input (`q = (targets_task, cache_task, task, task_weight)`). -/
def taskDf (ops : Ops) (input : Mat) (q : TMat × Option Mat × LogisticLayer × ℚ) : Mat :=
  (LogisticLayer.backprop ops q.2.2.1 input q.1 q.2.1).2

/-- The gradient pair a single task's backprop computes individually, in the
task's own internal order `(df_W, df_b)`. -/
def taskGrads (ops : Ops) (input : Mat) (q : TMat × Option Mat × LogisticLayer × ℚ) :
    List Tensor :=
  [Tensor.mat (LogisticLayer.backprop ops q.2.2.1 input q.1 q.2.1).1.1,
   Tensor.vec (LogisticLayer.backprop ops q.2.2.1 input q.1 q.2.1).1.2]

instance {ε α : Type} [DecidableEq ε] [DecidableEq α] : DecidableEq (Except ε α) :=
  fun x y =>
  match x, y with
  | .ok a, .ok b =>
    if h : a = b then isTrue (by rw [h]) else isFalse (by simp [h])
  | .error a, .error b =>
    if h : a = b then isTrue (by rw [h]) else isFalse (by simp [h])
  | .ok _, .error _ => isFalse (fun hh => Except.noConfusion hh)
  | .error _, .ok _ => isFalse (fun hh => Except.noConfusion hh)

/-- Concrete collaborator instantiation used by the witnesses. -/
def ops0 : Ops where
  sigmoidF := id
  dfSigmoidF := id
  tanhF := id
  dfTanhF := id
  sqrtF := id
  rand := fun r c => List.replicate r (List.replicate c 0)
  dropoutMask := id
  softmaxF := id
  crossEntropyF := fun _ _ => 0

/-- Concrete hidden layer used by the witnesses. -/
def hl0 : HiddenLayer where
  n_in := 1
  n_units := 1
  W := [[1]]
  b := [0]
  activation_function := "linear"
  dropout := false
  l1_penalty_weight := 0
  l2_penalty_weight := 0
  lr_multiplier := [1, 1]

/-- Concrete logistic head used by the witnesses. -/
def ll0 : LogisticLayer where
  n_in := 1
  n_out := 1
  W := [[1]]
  b := [0]
  l1_penalty_weight := 0
  l2_penalty_weight := 0
  lr_multiplier := [1, 1]
  test_error_fct := "class_error"

/-- Concrete two-class logistic head used for the class-error evaluation. -/
def ll2 : LogisticLayer where
  n_in := 2
  n_out := 2
  W := [[1, 0], [0, 1]]
  b := [0, 0]
  l1_penalty_weight := 0
  l2_penalty_weight := 0
  lr_multiplier := [1, 1]
  test_error_fct := "class_error"

/-- Concrete two-task multitask head (task weights 1 and 2) used by the
witnesses. -/
def mtTL : MultitaskTopLayer where
  tasks := [ll0, ll0]
  task_weights := [1, 2]

/-- Concrete per-task targets used by the multitask witness. -/
def mtTargets : List TMat := [[[some 1]], [[some 0]]]

/-- Concrete per-task caches used by the multitask witness. -/
def mtCache : Option (List (Option Mat)) := some [some [[1]], some [[1]]]

/-- Concrete one-hidden-layer network used by the witnesses. -/
def nn0 : NeuralNet where
  hidden_layers := [.hidden hl0]
  top_layer := ll0

/-- The network `neuralNetInit ops0 [int 2] none "linear" false 3 2 0 0`
evaluates to (used by the constructor witness). -/
def nn0c : NeuralNet where
  hidden_layers := [.hidden
    { n_in := 3
      n_units := 2
      W := [[-3/5, -3/5], [-3/5, -3/5], [-3/5, -3/5]]
      b := [0, 0]
      activation_function := "linear"
      dropout := false
      l1_penalty_weight := 0
      l2_penalty_weight := 0
      lr_multiplier := [1/3, 1/3] }]
  top_layer :=
    { n_in := 2
      n_out := 2
      W := [[-3, -3], [-3, -3]]
      b := [0, 0]
      l1_penalty_weight := 0
      l2_penalty_weight := 0
      lr_multiplier := [1/2, 1/2]
      test_error_fct := "class_error" }

lemma zipWith_same_left {α β γ δ : Type} (g : α → γ → δ) (f : α → β → γ) :
    ∀ (as : List α) (bs : List β),
      List.zipWith g as (List.zipWith f as bs) =
        List.zipWith (fun a b => g a (f a b)) as bs := by
  intro as
  induction as with
  | nil => intro bs; rfl
  | cons a as ih =>
    intro bs
    cases bs with
    | nil => rfl
    | cons b bs => simp [ih]

lemma logisticDelta_patchNaN (acts : Mat) (targets : TMat) :
    logisticDelta acts (patchNaN acts targets) = logisticDelta acts targets := by
  unfold logisticDelta patchNaN matSubT nanToZeros
  induction acts generalizing targets with
  | nil => rfl
  | cons r rs ih =>
    cases targets with
    | nil => rfl
    | cons t ts =>
      simp only [List.zipWith_cons_cons, List.map_cons, List.cons.injEq]
      refine ⟨?_, ih ts⟩
      induction r generalizing t with
      | nil => rfl
      | cons x xs ihr =>
        cases t with
        | nil => rfl
        | cons y ys =>
          simp only [List.zipWith_cons_cons, List.map_cons, List.cons.injEq]
          refine ⟨?_, ihr ys⟩
          cases y <;> simp

/-- C2: the logistic head's backprop zeroes every NaN entry of
`delta = activations - targets` before any of the three gradients is
formed, so the result of backprop on targets with NaN entries is exactly the
result on the targets whose NaN entries are replaced by the predicted
activation itself — the target value whose per-entry error contribution is
zero.  Hence NaN target entries contribute exactly zero to `df_W`, `df_b`
and `df_input`. -/
theorem logistic_backprop_nan_targets_contribute_zero (ops : Ops)
    (ll : LogisticLayer) (input : Mat) (targets : TMat) (acts : Mat) :
    ll.backprop ops input targets (some acts) =
      ll.backprop ops input (patchNaN acts targets) (some acts) := by
  simp only [LogisticLayer.backprop, logisticDelta_patchNaN]

/-- C3: a dummy layer whose declared width matches the input's column count
feeds the input through unchanged, and its backprop returns an empty
gradient collection together with the incoming output gradient unchanged
(for every input, gradient and cache). -/
theorem dummy_layer_identity (ops : Ops) (n : ℕ) (input : Mat)
    (prediction : Bool) (h : matCols input = n) :
    Layer.feedForward ops (.dummy n) input prediction = .ok [input] ∧
    ∀ (input2 df : Mat) (cache : Option (List Mat)),
      Layer.backprop ops (.dummy n) input2 df cache = .ok ([], df) := by
  constructor
  · simp [Layer.feedForward, h]
  · intro _ df _; rfl

/-- C5: the claim says a network with an empty hidden-layer sequence can be
constructed; the constructor instead always raises IndexError at
`self.n_in = self.hidden_layers[0].n_in` when the sequence is empty, for
every choice of collaborators and arguments. -/
theorem neuralnet_init_empty_layers_index_error (ops : Ops)
    (top : Option LogisticLayer) (act : String) (dp : Bool) (n_in n_out : ℕ)
    (l1 l2 : ℚ) :
    neuralNetInit ops [] top act dp n_in n_out l1 l2 =
      .error "IndexError: list index out of range" := rfl

/-- C7: the claim says backprop without a cache recomputes a forward pass;
the recomputation call passes a `dropout` keyword that `feed_forward` does
not accept, so the cache-less path raises TypeError for every hidden layer
and input instead of recomputing. -/
theorem hidden_backprop_no_cache_type_error (ops : Ops) (hl : HiddenLayer)
    (input df_output : Mat) :
    hl.backprop ops input df_output none =
      .error "TypeError: feed_forward got an unexpected keyword argument dropout" := rfl

lemma rowAdd_get (r : Vec) : ∀ (s : Vec), r.length = s.length → ∀ (j : ℕ),
    ((List.zipWith (· + ·) r s).get? j).getD 0 =
      ((r.get? j).getD 0) + ((s.get? j).getD 0) := by
  induction r with
  | nil =>
    intro s h j
    cases s with
    | nil => simp
    | cons y ys => simp at h
  | cons x xs ih =>
    intro s h j
    cases s with
    | nil => simp at h
    | cons y ys =>
      cases j with
      | zero => simp
      | succ j => simpa using ih ys (by simpa using h) j

lemma entry_madd : ∀ (A B : Mat), dims A = dims B → ∀ (i j : ℕ),
    entry (madd A B) i j = entry A i j + entry B i j := by
  intro A
  induction A with
  | nil =>
    intro B h i j
    have hB : B = [] := by
      cases B with
      | nil => rfl
      | cons b bs => simp [dims] at h
    subst hB
    simp [madd, entry]
  | cons a as ih =>
    intro B h i j
    cases B with
    | nil => simp [dims] at h
    | cons b bs =>
      simp only [dims, List.map_cons, List.cons.injEq] at h
      cases i with
      | zero => simpa [madd, entry] using rowAdd_get a b h.1 j
      | succ i => simpa [madd, entry] using ih bs (by simpa [dims] using h.2) i j

lemma entry_smulM (w : ℚ) (D : Mat) (i j : ℕ) :
    entry (smulM w D) i j = w * entry D i j := by
  unfold entry smulM emap
  simp only [List.get?_eq_getElem?, List.getElem?_map]
  rcases hD : D[i]? with _ | r
  · simp
  · rcases hr : r[j]? with _ | x
    · simp [List.getElem?_map, hr]
    · simp [List.getElem?_map, hr]

lemma entry_zerosLike (m : Mat) (i j : ℕ) : entry (zerosLike m) i j = 0 := by
  unfold entry zerosLike
  simp only [List.get?_eq_getElem?, List.getElem?_map]
  rcases hD : m[i]? with _ | r
  · simp
  · rcases hr : r[j]? with _ | x
    · simp [List.getElem?_map, hr]
    · simp [List.getElem?_map, hr]

lemma dims_madd : ∀ (A B : Mat), dims A = dims B → dims (madd A B) = dims A := by
  intro A
  induction A with
  | nil => intro B h; rfl
  | cons a as ih =>
    intro B h
    cases B with
    | nil => simp [dims] at h
    | cons b bs =>
      simp only [dims, List.map_cons, List.cons.injEq] at h
      simp [madd, dims, List.length_zipWith, h.1, ih bs (by simpa [dims] using h.2)]
      simp [dims] at ih ⊢
      exact ih bs h.2

lemma dims_smulM (w : ℚ) (D : Mat) : dims (smulM w D) = dims D := by
  simp [dims, smulM, emap, List.map_map, Function.comp]

lemma dims_zerosLike (m : Mat) : dims (zerosLike m) = dims m := by
  simp [dims, zerosLike, List.map_map, Function.comp]

/-- The backprop loop of the multitask head, written with explicit
projections (definitionally equal to the `let`-destructuring form). -/
def mtStep (ops : Ops) (input : Mat) (acc : List Tensor × Mat)
    (q : TMat × Option Mat × LogisticLayer × ℚ) : List Tensor × Mat :=
  (acc.1 ++ taskGrads ops input q, madd acc.2 (smulM q.2.2.2 (taskDf ops input q)))

lemma mt_backprop_as_fold (ops : Ops) (tl : MultitaskTopLayer) (input : Mat)
    (targets : List TMat) (cache : Option (List (Option Mat))) :
    tl.backprop ops input targets cache =
      (zip4 targets (mtCaches tl cache) tl.tasks tl.task_weights).foldl
        (mtStep ops input) ([], zerosLike input) := rfl

lemma mt_fold_fst (ops : Ops) (input : Mat) :
    ∀ (l : List (TMat × Option Mat × LogisticLayer × ℚ))
      (g0 : List Tensor) (d0 : Mat),
      (l.foldl (mtStep ops input) (g0, d0)).1 =
        g0 ++ l.flatMap (taskGrads ops input) := by
  intro l
  induction l with
  | nil => intro g0 d0; simp
  | cons q l ih =>
    intro g0 d0
    simp [List.foldl_cons, mtStep, ih]

lemma mt_fold_snd (ops : Ops) (input : Mat) :
    ∀ (l : List (TMat × Option Mat × LogisticLayer × ℚ)) (g0 : List Tensor) (d0 : Mat),
      dims d0 = dims input →
      (∀ q ∈ l, dims (taskDf ops input q) = dims input) →
      dims (l.foldl (mtStep ops input) (g0, d0)).2 = dims input ∧
      ∀ i j, entry (l.foldl (mtStep ops input) (g0, d0)).2 i j =
        entry d0 i j + (l.map fun q => q.2.2.2 * entry (taskDf ops input q) i j).sum := by
  intro l
  induction l with
  | nil =>
    intro g0 d0 hd _
    refine ⟨hd, ?_⟩
    intro i j
    simp
  | cons q l ih =>
    intro g0 d0 hd hq
    have hq0 : dims (taskDf ops input q) = dims input := hq q (by simp)
    have hsm : dims d0 = dims (smulM q.2.2.2 (taskDf ops input q)) := by
      rw [dims_smulM, hq0, hd]
    have hd1 : dims (madd d0 (smulM q.2.2.2 (taskDf ops input q))) = dims input := by
      rw [dims_madd _ _ hsm, hd]
    have := ih (g0 ++ taskGrads ops input q)
      (madd d0 (smulM q.2.2.2 (taskDf ops input q))) hd1
      (fun p hp => hq p (by simp [hp]))
    refine ⟨this.1, ?_⟩
    intro i j
    rw [List.foldl_cons]
    show entry ((l.foldl (mtStep ops input) (mtStep ops input (g0, d0) q)).2) i j = _
    have hstep : (mtStep ops input (g0, d0) q) =
        (g0 ++ taskGrads ops input q, madd d0 (smulM q.2.2.2 (taskDf ops input q))) := rfl
    rw [hstep, this.2 i j, entry_madd d0 _ hsm i j, entry_smulM]
    simp [add_assoc]

/-- C6: the multitask head's backprop aggregates `df_input` as the weighted
sum, over tasks in order, of the `df_input` each task's backprop computes
individually on the shared input, accumulated from a zero-initialised
tensor shaped like the input (stated entrywise); and its returned gradient
list is the per-task gradient pairs concatenated in task order, each task's
own `(df_W, df_b)` ordering preserved. -/
theorem multitask_backprop_weighted_aggregation (ops : Ops)
    (tl : MultitaskTopLayer) (input : Mat) (targets : List TMat)
    (cache : Option (List (Option Mat)))
    (hdims : ∀ q ∈ zip4 targets (mtCaches tl cache) tl.tasks tl.task_weights,
      dims (taskDf ops input q) = dims input) :
    (tl.backprop ops input targets cache).1 =
      (zip4 targets (mtCaches tl cache) tl.tasks tl.task_weights).flatMap
        (taskGrads ops input) ∧
    ∀ i j, entry (tl.backprop ops input targets cache).2 i j =
      ((zip4 targets (mtCaches tl cache) tl.tasks tl.task_weights).map
        (fun q => q.2.2.2 * entry (taskDf ops input q) i j)).sum := by
  rw [mt_backprop_as_fold]
  constructor
  · rw [mt_fold_fst]
    simp
  · intro i j
    have := (mt_fold_snd ops input _ [] (zerosLike input) (dims_zerosLike input) hdims).2 i j
    rw [this, entry_zerosLike]
    simp

lemma kindsOk_main : ∀ (ls : List Layer) (v : List Tensor),
    kindsOk ls v = true →
    ∃ (M : Mat) (B : Vec),
      v.length = (ls.map Layer.nParameters).sum + 2 ∧
      v.drop (v.length - 2) = [Tensor.mat M, Tensor.vec B] ∧
      ((setHiddenParams ls v).map Layer.getParams).flatten ++
        [Tensor.mat M, Tensor.vec B] = v := by
  intro ls
  induction ls with
  | nil =>
    intro v h
    match v with
    | [] => simp [kindsOk] at h
    | [Tensor.mat _] => simp [kindsOk] at h
    | [Tensor.vec _] => simp [kindsOk] at h
    | Tensor.vec _ :: _ :: _ => simp [kindsOk] at h
    | Tensor.mat _ :: Tensor.mat _ :: _ => simp [kindsOk] at h
    | Tensor.mat _ :: Tensor.vec _ :: _ :: _ => simp [kindsOk] at h
    | [Tensor.mat m, Tensor.vec b] =>
      exact ⟨m, b, by simp, by simp, by simp [setHiddenParams]⟩
  | cons l ls ih =>
    intro v h
    cases l with
    | hidden hl =>
      match v with
      | [] => simp [kindsOk] at h
      | [Tensor.mat _] => simp [kindsOk] at h
      | [Tensor.vec _] => simp [kindsOk] at h
      | Tensor.vec _ :: _ :: _ => simp [kindsOk] at h
      | Tensor.mat _ :: Tensor.mat _ :: _ => simp [kindsOk] at h
      | Tensor.mat m :: Tensor.vec b :: v' =>
        have h' : kindsOk ls v' = true := h
        obtain ⟨M, B, hlen, hdrop, hflat⟩ := ih v' h'
        refine ⟨M, B, ?_, ?_, ?_⟩
        · simp only [List.length_cons, List.map_cons, List.sum_cons,
            Layer.nParameters]
          omega
        · have h2 : (Tensor.mat m :: Tensor.vec b :: v').length - 2 =
              (v'.length - 2) + 1 + 1 := by
            simp only [List.length_cons]
            omega
          rw [h2, List.drop_succ_cons, List.drop_succ_cons]
          exact hdrop
        · show ((Layer.setParams (.hidden hl) _ :: setHiddenParams ls _).map
              Layer.getParams).flatten ++ _ = _
          simp only [Layer.nParameters, List.take_succ_cons, List.take_zero,
            List.drop_succ_cons, List.drop_zero, Layer.setParams,
            List.map_cons, List.flatten_cons, Layer.getParams]
          simp only [List.cons_append, List.append_assoc, List.nil_append]
          simp [hflat]
    | dummy n =>
      have h' : kindsOk ls v = true := h
      obtain ⟨M, B, hlen, hdrop, hflat⟩ := ih v h'
      refine ⟨M, B, ?_, hdrop, ?_⟩
      · simpa [Layer.nParameters] using hlen
      · show ((Layer.setParams (.dummy n) _ :: setHiddenParams ls _).map
            Layer.getParams).flatten ++ _ = _
        simpa [Layer.nParameters, Layer.setParams, Layer.getParams] using hflat

/-- C9: for every network and every kind-correct flat parameter sequence of
the correct length, assigning through the `parameters` setter and reading
the getter back yields exactly the assigned sequence. -/
theorem parameters_roundtrip (nn : NeuralNet) (v : List Tensor)
    (h : kindsOk nn.hidden_layers v = true) :
    (nn.setParameters v).map NeuralNet.getParameters = Except.ok v := by
  obtain ⟨M, B, hlen, hdrop, hflat⟩ := kindsOk_main nn.hidden_layers v h
  have hne : ¬(v.length ≠ nn.nParameters) := by
    simp [NeuralNet.nParameters, hlen]
  unfold NeuralNet.setParameters
  rw [if_neg hne]
  show Except.ok (NeuralNet.getParameters _) = _
  unfold NeuralNet.getParameters
  rw [hdrop]
  simp only [LogisticLayer.setParams, LogisticLayer.getParams]
  rw [hflat]

lemma hiddenLayerInit_fields (ops : Ops) (a b : ℕ) (act : String) (dp : Bool)
    (l1 l2 : ℚ) (hl : HiddenLayer)
    (h : hiddenLayerInit ops a b act dp l1 l2 = .ok hl) :
    hl.n_in = a ∧ hl.n_units = b := by
  by_cases hc1 : (resolveActivation ops act).isNone
  · simp [hiddenLayerInit, hc1, bind, Except.bind] at h
  · simp only [hiddenLayerInit, hc1, Bool.false_eq_true, if_false, pure,
      Except.pure, bind, Except.bind] at h
    repeat' split at h
    all_goals first
      | exact Except.noConfusion h
      | (simp only [Except.ok.injEq] at h; subst h; exact ⟨rfl, rfl⟩)

lemma buildHidden_int (ops : Ops) (n_in : ℕ) (act : String) (dp : Bool)
    (l1 l2 : ℚ) :
    ∀ (sizes : List ℕ) (acc out : List Layer),
      buildHiddenLayers ops n_in act dp l1 l2 (sizes.map .int) acc = .ok out →
      ∃ nw : List Layer, out = acc ++ nw ∧
        dimsChainFrom ((acc.getLast?.map Layer.nUnits).getD n_in) nw := by
  intro sizes
  induction sizes with
  | nil =>
    intro acc out h
    simp only [List.map_nil, buildHiddenLayers, Except.ok.injEq] at h
    exact ⟨[], by simp [h], trivial⟩
  | cons s rest ih =>
    intro acc out h
    rcases e : hiddenLayerInit ops ((acc.getLast?.map Layer.nUnits).getD n_in) s
        act dp l1 l2 with err | hl
    · simp only [List.map_cons, buildHiddenLayers, e, bind, Except.bind] at h
      exact Except.noConfusion h
    · simp only [List.map_cons, buildHiddenLayers, e, bind, Except.bind] at h
      obtain ⟨nw', hout, hchain⟩ := ih (acc ++ [.hidden hl]) out h
      obtain ⟨hin, hunits⟩ := hiddenLayerInit_fields ops _ s act dp l1 l2 hl e
      refine ⟨.hidden hl :: nw', by simp [hout], ?_, ?_⟩
      · exact hin
      · have hlast : ((acc ++ [Layer.hidden hl]).getLast?.map Layer.nUnits).getD n_in =
            Layer.nUnits (.hidden hl) := by
          simp [List.getLast?_concat]
        rw [hlast] at hchain
        exact hchain

lemma lastWidth_eq : ∀ (ls : List Layer) (n : ℕ),
    lastWidth n ls = (ls.map Layer.nUnits).getLastD n := by
  intro ls
  induction ls with
  | nil => intro n; rfl
  | cons l ls ih =>
    intro n
    simp only [lastWidth, List.map_cons, List.getLastD_cons]
    exact ih l.nUnits

/-- C10: when a network is constructed from integer unit-counts, the
constructed hidden layers' dimensions chain — the first layer's `n_in` is
the `n_in` argument and each later layer's `n_in` is the preceding layer's
`n_units` — and the default-constructed output head's `n_in` is the last
hidden layer's `n_units` (or the `n_in` argument for an empty stack). -/
theorem neuralnet_init_int_dims_chain (ops : Ops) (sizes : List ℕ)
    (act : String) (dp : Bool) (n_in n_out : ℕ) (l1 l2 : ℚ) (nn : NeuralNet)
    (h : neuralNetInit ops (sizes.map .int) none act dp n_in n_out l1 l2 = .ok nn) :
    dimsChainFrom n_in nn.hidden_layers ∧
    nn.top_layer.n_in = lastWidth n_in nn.hidden_layers := by
  rcases e : buildHiddenLayers ops n_in act dp l1 l2 (sizes.map .int) []
    with err | hls
  · simp [neuralNetInit, e, bind, Except.bind] at h
  · obtain ⟨nw, hout, hchain⟩ := buildHidden_int ops n_in act dp l1 l2 sizes [] hls e
    cases hhd : hls.head? with
    | none =>
      simp [neuralNetInit, e, bind, Except.bind, hhd] at h
    | some l =>
      simp only [neuralNetInit, e, bind, Except.bind, hhd, pure, Except.pure,
        Except.ok.injEq] at h
      subst h
      constructor
      · simpa [hout] using hchain
      · show (logisticInit ops _ n_out l1 l2 "class_error").n_in = _
        show (hls.map Layer.nUnits).getLastD n_in = _
        rw [lastWidth_eq]

lemma runHidden_length (ops : Ops) : ∀ (ls : List Layer) (input : Mat) (p : Bool)
    (hc : List (List Mat)), runHidden ops ls input p = .ok hc →
    hc.length = ls.length := by
  intro ls
  induction ls with
  | nil =>
    intro input p hc h
    simp only [runHidden, Except.ok.injEq] at h
    simp [← h]
  | cons l ls ih =>
    intro input p hc h
    rcases e1 : l.feedForward ops input p with err | c
    · simp [runHidden, e1, bind, Except.bind] at h
    · rcases e2 : runHidden ops ls (c.head?.getD []) p with err | rest
      · simp [runHidden, e1, e2, bind, Except.bind] at h
      · simp only [runHidden, e1, List.headD_eq_head?, e2, bind, Except.bind,
          pure, Except.pure, Except.ok.injEq] at h
        rw [← h]
        simp [ih (c.head?.getD []) p rest e2]

lemma trainingLoop_append (ops : Ops) :
    ∀ (A B : List (Layer × List Mat × Mat)) (g : List Tensor) (df : Mat),
    trainingLoop ops (A ++ B) g df =
      (trainingLoop ops A g df).bind (fun p => trainingLoop ops B p.1 p.2) := by
  intro A
  induction A with
  | nil => intro B g df; simp [trainingLoop, Except.bind]
  | cons t A ih =>
    intro B g df
    obtain ⟨hl, hc, hi⟩ := t
    rcases e : Layer.backprop ops hl hi df (some hc) with err | p
    · simp [trainingLoop, e, bind, Except.bind]
    · simp [trainingLoop, e, bind, Except.bind, ih]

lemma zip3_append {α β γ : Type} :
    ∀ (as : List α) (bs : List β) (cs : List γ)
      (as' : List α) (bs' : List β) (cs' : List γ),
    as.length = bs.length → as.length = cs.length →
    zip3 (as ++ as') (bs ++ bs') (cs ++ cs') =
      zip3 as bs cs ++ zip3 as' bs' cs' := by
  intro as
  induction as with
  | nil =>
    intro bs cs as' bs' cs' h1 h2
    cases bs with
    | cons b bs => simp at h1
    | nil =>
      cases cs with
      | cons c cs => simp at h2
      | nil => simp [zip3]
  | cons a as ih =>
    intro bs cs as' bs' cs' h1 h2
    cases bs with
    | nil => simp at h1
    | cons b bs =>
      cases cs with
      | nil => simp at h2
      | cons c cs =>
        simp only [List.cons_append, zip3, List.cons.injEq, true_and]
        exact ih bs cs as' bs' cs' (by simpa using h1) (by simpa using h2)

lemma flatten_rev_rev {α : Type} : ∀ (bs : List (List α)),
    ((bs.map List.reverse).reverse.flatten).reverse = bs.flatten := by
  intro bs
  induction bs with
  | nil => rfl
  | cons g bs ih =>
    simp only [List.map_cons, List.reverse_cons, List.flatten_append,
      List.flatten_cons, List.flatten_nil, List.append_nil, List.reverse_append,
      List.reverse_reverse]
    rw [ih]

lemma trainingLoop_blocks (ops : Ops) : ∀ (ls : List Layer)
    (cs : List (List Mat)) (is : List Mat) (df : Mat) (g0 : List Tensor),
    ls.length = cs.length → ls.length = is.length →
    trainingLoop ops (zip3 ls.reverse cs.reverse is.reverse) g0 df =
      (backwardBlocks ops ls cs is df).map
        (fun p => (g0 ++ ((p.1.map List.reverse).reverse).flatten, p.2)) := by
  intro ls
  induction ls with
  | nil =>
    intro cs is df g0 h1 h2
    cases cs with
    | cons c cs => simp at h1
    | nil =>
      cases is with
      | cons i is => simp at h2
      | nil => simp [zip3, trainingLoop, backwardBlocks, Except.map]
  | cons l ls ih =>
    intro cs is df g0 h1 h2
    cases cs with
    | nil => simp at h1
    | cons c cs =>
      cases is with
      | nil => simp at h2
      | cons i is =>
        have h1' : ls.length = cs.length := by simpa using h1
        have h2' : ls.length = is.length := by simpa using h2
        have hz : zip3 (l :: ls).reverse (c :: cs).reverse (i :: is).reverse =
            zip3 ls.reverse cs.reverse is.reverse ++ [(l, c, i)] := by
          simp only [List.reverse_cons]
          rw [zip3_append ls.reverse cs.reverse is.reverse [l] [c] [i]
            (by simp [h1']) (by simp [h2'])]
          rfl
        rw [hz, trainingLoop_append, ih cs is df g0 h1' h2']
        rcases e1 : backwardBlocks ops ls cs is df with err | p
        · simp [backwardBlocks, e1, bind, Except.bind, Except.map]
        · obtain ⟨bs, dfm⟩ := p
          rcases e2 : Layer.backprop ops l i dfm (some c) with err | gp
          · simp [backwardBlocks, e1, e2, bind, Except.bind, Except.map,
              trainingLoop]
          · obtain ⟨g, df'⟩ := gp
            simp only [backwardBlocks, e1, e2, bind, Except.bind, Except.map,
              trainingLoop, pure, Except.pure, Except.ok.injEq]
            simp [List.flatten_append, List.append_assoc]

lemma backprop_block_length (ops : Ops) (l : Layer) (i df : Mat)
    (c : Option (List Mat)) (g : List Tensor) (d : Mat)
    (h : Layer.backprop ops l i df c = .ok (g, d)) :
    g.length = l.nParameters := by
  cases l with
  | dummy n =>
    simp only [Layer.backprop, Except.ok.injEq, Prod.mk.injEq] at h
    simp [← h.1, Layer.nParameters]
  | hidden hl =>
    rcases e : hl.backprop ops i df c with err | p
    · simp [Layer.backprop, e, bind, Except.bind] at h
    · simp only [Layer.backprop, e, bind, Except.bind, pure, Except.pure,
        Except.ok.injEq, Prod.mk.injEq] at h
      simp [← h.1, Layer.nParameters]

lemma backwardBlocks_forall2 (ops : Ops) : ∀ (ls : List Layer)
    (cs : List (List Mat)) (is : List Mat) (df : Mat)
    (bs : List (List Tensor)) (dfin : Mat),
    ls.length = cs.length → ls.length = is.length →
    backwardBlocks ops ls cs is df = .ok (bs, dfin) →
    List.Forall₂ (fun (bk : List Tensor) l => bk.length = Layer.nParameters l)
      bs ls := by
  intro ls
  induction ls with
  | nil =>
    intro cs is df bs dfin h1 h2 h
    cases cs with
    | cons c cs => simp at h1
    | nil =>
      cases is with
      | cons i is => simp at h2
      | nil =>
        simp only [backwardBlocks, Except.ok.injEq, Prod.mk.injEq] at h
        rw [← h.1]
        exact List.Forall₂.nil
  | cons l ls ih =>
    intro cs is df bs dfin h1 h2 h
    cases cs with
    | nil => simp at h1
    | cons c cs =>
      cases is with
      | nil => simp at h2
      | cons i is =>
        rcases e1 : backwardBlocks ops ls cs is df with err | p
        · simp [backwardBlocks, e1, bind, Except.bind] at h
        · obtain ⟨bs', dfm⟩ := p
          rcases e2 : Layer.backprop ops l i dfm (some c) with err | gp
          · simp [backwardBlocks, e1, e2, bind, Except.bind] at h
          · obtain ⟨g, df'⟩ := gp
            simp only [backwardBlocks, e1, e2, bind, Except.bind, pure,
              Except.pure, Except.ok.injEq, Prod.mk.injEq] at h
            rw [← h.1]
            exact List.Forall₂.cons
              (backprop_block_length ops l i dfm (some c) g df' e2)
              (ih cs is df bs' dfm (by simpa using h1) (by simpa using h2) e1)

lemma forall2_map_self {α β : Type} (P : β → α → Prop) (f : α → β) :
    ∀ (ls : List α), (∀ l ∈ ls, P (f l) l) → List.Forall₂ P (ls.map f) ls := by
  intro ls
  induction ls with
  | nil => intro _; exact List.Forall₂.nil
  | cons l ls ih =>
    intro h
    exact List.Forall₂.cons (h l (by simp))
      (ih fun x hx => h x (by simp [hx]))

/-- C1: whenever a training pass succeeds, the gradient list it returns is
the declaration-order concatenation of per-layer blocks — layer 0's block
first, each hidden block `[df_W, df_b]` with the weight gradient before the
bias gradient (and an empty block for a dummy layer), the output head's
`[df_W, df_b]` last — where the blocks are exactly those produced by walking
the layers' backprops on the same caches (`backwardBlocks`); and this
blockwise layout coincides position-by-position with the network's flat
`lr_multiplier` sequence and flat `parameters` sequence: all three flat
sequences decompose into per-layer blocks, in the same layer order, of equal
length `n_parameters` per layer. -/
theorem training_pass_gradient_declaration_order (ops : Ops) (nn : NeuralNet)
    (input : Mat) (targets : TMat) (loss : ℚ) (grads : List Tensor)
    (hidden_cache : List (List Mat)) (blocks : List (List Tensor)) (dfin : Mat)
    (hrun : nn.trainingPass ops input targets = .ok (loss, grads))
    (hrh : runHidden ops nn.hidden_layers input false = .ok hidden_cache)
    (hbb : backwardBlocks ops nn.hidden_layers hidden_cache
      (hiddenInputs input hidden_cache)
      (topBackprop ops nn hidden_cache targets).2 = .ok (blocks, dfin))
    (hlr : ∀ l ∈ nn.hidden_layers,
      (Layer.lrMultiplier l).length = Layer.nParameters l)
    (_hlrtop : nn.top_layer.lr_multiplier.length = 2) :
    grads = blocks.flatten ++
      [Tensor.mat (topBackprop ops nn hidden_cache targets).1.1,
       Tensor.vec (topBackprop ops nn hidden_cache targets).1.2] ∧
    List.Forall₂ (fun (bk : List Tensor) l => bk.length = Layer.nParameters l)
      blocks nn.hidden_layers ∧
    nn.lrMultiplier = (nn.hidden_layers.map Layer.lrMultiplier).flatten ++
      nn.top_layer.lr_multiplier ∧
    List.Forall₂ (fun (m : List ℚ) l => m.length = Layer.nParameters l)
      (nn.hidden_layers.map Layer.lrMultiplier) nn.hidden_layers ∧
    nn.getParameters = (nn.hidden_layers.map Layer.getParams).flatten ++
      nn.top_layer.getParams ∧
    List.Forall₂ (fun (p : List Tensor) l => p.length = Layer.nParameters l)
      (nn.hidden_layers.map Layer.getParams) nn.hidden_layers := by
  have hclen : hidden_cache.length = nn.hidden_layers.length :=
    runHidden_length ops nn.hidden_layers input false hidden_cache hrh
  simp only [topBackprop] at hbb ⊢
  cases hHL : nn.hidden_layers with
  | nil =>
    exfalso
    simp only [NeuralNet.trainingPass, NeuralNet.evaluate,
      NeuralNet.feedForwardCache, hHL, bind, Except.bind] at hrun
    exact Except.noConfusion hrun
  | cons l0 ls0 =>
    rw [hHL] at hrh hbb hclen hlr
    have hclen' : hidden_cache.length = ls0.length + 1 := by simpa using hclen
    have len1 : (l0 :: ls0).length = hidden_cache.length := hclen.symm
    have len2 : (l0 :: ls0).length = (hiddenInputs input hidden_cache).length := by
      simp only [hiddenInputs, List.length_cons, List.length_map,
        List.length_dropLast]
      omega
    simp only [NeuralNet.trainingPass, NeuralNet.evaluate,
      NeuralNet.feedForwardCache, hHL, hrh, bind, Except.bind, pure,
      Except.pure, List.isEmpty_cons, Bool.false_eq_true, if_false] at hrun
    rw [trainingLoop_blocks ops (l0 :: ls0) hidden_cache
      (hiddenInputs input hidden_cache) _ _ len1 len2, hbb] at hrun
    simp only [Except.map, Except.ok.injEq, Prod.mk.injEq] at hrun
    obtain ⟨-, hg⟩ := hrun
    refine ⟨?_, ?_, ?_, ?_, ?_, ?_⟩
    · rw [← hg, List.reverse_append, flatten_rev_rev]
      rfl
    · exact backwardBlocks_forall2 ops (l0 :: ls0) hidden_cache
        (hiddenInputs input hidden_cache) _ blocks dfin len1 len2 hbb
    · simp [NeuralNet.lrMultiplier, hHL]
    · exact forall2_map_self _ Layer.lrMultiplier (l0 :: ls0) hlr
    · simp [NeuralNet.getParameters, hHL]
    · exact forall2_map_self _ Layer.getParams (l0 :: ls0)
        (fun l _ => by cases l <;> rfl)

section DecideOnRationals

attribute [local semireducible] Rat.add Rat.mul Rat.sub Rat.inv

/-- Witness for C3: a concrete dummy layer, matching-width input, gradient
and cache. -/
theorem dummy_layer_identity_witness :
    matCols [[(1 : ℚ), 2]] = 2 ∧
    Layer.feedForward ops0 (.dummy 2) [[(1 : ℚ), 2]] false = .ok [[[(1 : ℚ), 2]]] ∧
    Layer.backprop ops0 (.dummy 2) [[(3 : ℚ)]] [[(4 : ℚ), 5]] none =
      .ok ([], [[(4 : ℚ), 5]]) :=
  ⟨by decide,
   (dummy_layer_identity ops0 2 [[(1 : ℚ), 2]] false (by decide)).1,
   (dummy_layer_identity ops0 2 [[(1 : ℚ), 2]] false (by decide)).2
     [[(3 : ℚ)]] [[(4 : ℚ), 5]] none⟩

/-- C4: evaluation of `class_error` at predictions
`[[0.9, 0.1], [0.8, 0.2]]` against one-hot targets `[[1, 0], [0, 1]]`
(two rows, exactly one mismatching argmax) with `average=True`.  The code
applies `.mean()` to the zero-dimensional `np.sum` scalar, which is the
scalar itself, so it returns the count `1`; the claimed mean of the two
per-row mismatches would be `1/2`. -/
theorem class_error_average_returns_count :
    LogisticLayer.classError ops0 ll2 [] [[1, 0], [0, 1]] true
      (some [[9/10, 1/10], [8/10, 2/10]]) false = 1 ∧ (1 : ℚ) ≠ 1/2 := by
  constructor
  · decide
  · decide

/-- Counterexample for C8: the claim requires every layer to reject a
gradient-pair sequence whose length differs from its `n_parameters`; the
Dummy override (`n_parameters = 0`) is `pass`, so a length-1 sequence is
accepted and the call succeeds without updating anything. -/
theorem dummy_update_wrong_length_succeeds :
    Layer.updateParameters (.dummy 2) [(Tensor.mat [[1]], 1)] = .ok (.dummy 2) := rfl

/-- C8 amended: the length assertion and the in-place scaled accumulation
`param := param + multiplier * gradient` (independently on the weight group
and the bias group) hold for Hidden and Logistic layers; the Dummy layer's
`update_parameters` ignores its arguments entirely and succeeds (as a no-op)
for every argument sequence, of any length. -/
theorem update_parameters_amended :
    (∀ (hl : HiddenLayer) (values : List (Tensor × ℚ)), values.length ≠ 2 →
      hl.updateParameters values = .error "AssertionError") ∧
    (∀ (hl : HiddenLayer) (gW : Mat) (mW : ℚ) (gb : Vec) (mb : ℚ),
      dims gW = dims hl.W → gb.length = hl.b.length →
      hl.updateParameters [(Tensor.mat gW, mW), (Tensor.vec gb, mb)] =
        .ok { hl with W := madd hl.W (smulM mW gW), b := vadd hl.b (smulV mb gb) }) ∧
    (∀ (ll : LogisticLayer) (values : List (Tensor × ℚ)), values.length ≠ 2 →
      ll.updateParameters values = .error "AssertionError") ∧
    (∀ (ll : LogisticLayer) (gW : Mat) (mW : ℚ) (gb : Vec) (mb : ℚ),
      dims gW = dims ll.W → gb.length = ll.b.length →
      ll.updateParameters [(Tensor.mat gW, mW), (Tensor.vec gb, mb)] =
        .ok { ll with W := madd ll.W (smulM mW gW), b := vadd ll.b (smulV mb gb) }) ∧
    (∀ (n : ℕ) (values : List (Tensor × ℚ)),
      Layer.updateParameters (.dummy n) values = .ok (.dummy n)) := by
  refine ⟨?_, ?_, ?_, ?_, ?_⟩
  · intro hl values h
    simp [HiddenLayer.updateParameters, h]
  · intro hl gW mW gb mb h1 h2
    simp [HiddenLayer.updateParameters, h1, h2]
  · intro ll values h
    simp [LogisticLayer.updateParameters, h]
  · intro ll gW mW gb mb h1 h2
    simp [LogisticLayer.updateParameters, h1, h2]
  · intro n values; rfl

/-- Witness for C8: concrete instances of each conjunct of the amended
claim, hypotheses discharged at concrete inputs. -/
theorem update_parameters_amended_witness :
    hl0.updateParameters [] = .error "AssertionError" ∧
    hl0.updateParameters [(Tensor.mat [[2]], 3), (Tensor.vec [5], 7)] =
      .ok { hl0 with W := madd hl0.W (smulM 3 [[2]]), b := vadd hl0.b (smulV 7 [5]) } ∧
    ll0.updateParameters [(Tensor.mat [[1]], 1), (Tensor.vec [1], 1), (Tensor.mat [[1]], 1)] =
      .error "AssertionError" ∧
    ll0.updateParameters [(Tensor.mat [[2]], 3), (Tensor.vec [5], 7)] =
      .ok { ll0 with W := madd ll0.W (smulM 3 [[2]]), b := vadd ll0.b (smulV 7 [5]) } ∧
    Layer.updateParameters (.dummy 4) [(Tensor.vec [1], 2)] = .ok (.dummy 4) :=
  ⟨update_parameters_amended.1 hl0 [] (by decide),
   update_parameters_amended.2.1 hl0 [[2]] 3 [5] 7 (by decide) (by decide),
   update_parameters_amended.2.2.1 ll0
     [(Tensor.mat [[1]], 1), (Tensor.vec [1], 1), (Tensor.mat [[1]], 1)] (by decide),
   update_parameters_amended.2.2.2.1 ll0 [[2]] 3 [5] 7 (by decide) (by decide),
   update_parameters_amended.2.2.2.2 4 [(Tensor.vec [1], 2)]⟩

/-- Witness for C6: two tasks with task weights 1 and 2, concrete input,
targets and caches; the dimension hypothesis is discharged by computation
and the aggregation conclusions are instantiated at entry (0, 0). -/
theorem multitask_backprop_weighted_aggregation_witness :
    (MultitaskTopLayer.backprop ops0 mtTL [[(1 : ℚ)]] mtTargets mtCache).1 =
      (zip4 mtTargets (mtCaches mtTL mtCache) mtTL.tasks mtTL.task_weights).flatMap
        (taskGrads ops0 [[(1 : ℚ)]]) ∧
    entry (MultitaskTopLayer.backprop ops0 mtTL [[(1 : ℚ)]] mtTargets mtCache).2 0 0 =
      ((zip4 mtTargets (mtCaches mtTL mtCache) mtTL.tasks mtTL.task_weights).map
        (fun q => q.2.2.2 * entry (taskDf ops0 [[(1 : ℚ)]] q) 0 0)).sum :=
  ⟨(multitask_backprop_weighted_aggregation ops0 mtTL [[(1 : ℚ)]] mtTargets mtCache
      (by decide)).1,
   (multitask_backprop_weighted_aggregation ops0 mtTL [[(1 : ℚ)]] mtTargets mtCache
      (by decide)).2 0 0⟩

/-- Witness for C1: a concrete one-hidden-layer network, input `[[1]]` and
targets `[[1]]`; the training pass, the forward caches and the
declaration-order blocks are all evaluated concretely and every hypothesis
of the ordering theorem is discharged by computation. -/
theorem training_pass_gradient_declaration_order_witness :
    [Tensor.mat [[(0 : ℚ)]], Tensor.vec [0], Tensor.mat [[0]], Tensor.vec [0]] =
      [[Tensor.mat [[(0 : ℚ)]], Tensor.vec [0]]].flatten ++
        [Tensor.mat (topBackprop ops0 nn0 [[[[1]]]] [[some 1]]).1.1,
         Tensor.vec (topBackprop ops0 nn0 [[[[1]]]] [[some 1]]).1.2] ∧
    List.Forall₂ (fun (bk : List Tensor) l => bk.length = Layer.nParameters l)
      [[Tensor.mat [[(0 : ℚ)]], Tensor.vec [0]]] nn0.hidden_layers ∧
    nn0.lrMultiplier = (nn0.hidden_layers.map Layer.lrMultiplier).flatten ++
      nn0.top_layer.lr_multiplier ∧
    List.Forall₂ (fun (m : List ℚ) l => m.length = Layer.nParameters l)
      (nn0.hidden_layers.map Layer.lrMultiplier) nn0.hidden_layers ∧
    nn0.getParameters = (nn0.hidden_layers.map Layer.getParams).flatten ++
      nn0.top_layer.getParams ∧
    List.Forall₂ (fun (p : List Tensor) l => p.length = Layer.nParameters l)
      (nn0.hidden_layers.map Layer.getParams) nn0.hidden_layers :=
  training_pass_gradient_declaration_order ops0 nn0 [[1]] [[some 1]] 0
    [Tensor.mat [[0]], Tensor.vec [0], Tensor.mat [[0]], Tensor.vec [0]]
    [[[[1]]]] [[Tensor.mat [[0]], Tensor.vec [0]]] [[0]]
    (by decide) (by decide) (by decide) (by decide) (by decide)

/-- Witness for C10: construction from the unit-count list `[2]` with
`n_in = 3`, `n_out = 2` succeeds and produces the fully evaluated network
`nn0c`; the chaining conclusions follow by applying the theorem. -/
theorem neuralnet_init_int_dims_chain_witness :
    dimsChainFrom 3 nn0c.hidden_layers ∧
    nn0c.top_layer.n_in = lastWidth 3 nn0c.hidden_layers :=
  neuralnet_init_int_dims_chain ops0 [2] "linear" false 3 2 0 0 nn0c (by decide)

/-- Witness for C9: a concrete network (one hidden layer plus head) and a
concrete kind-correct flat parameter sequence of length 4. -/
theorem parameters_roundtrip_witness :
    (nn0.setParameters
      [Tensor.mat [[2]], Tensor.vec [3], Tensor.mat [[4]], Tensor.vec [5]]).map
      NeuralNet.getParameters =
      Except.ok [Tensor.mat [[2]], Tensor.vec [3], Tensor.mat [[4]], Tensor.vec [5]] :=
  parameters_roundtrip nn0
    [Tensor.mat [[2]], Tensor.vec [3], Tensor.mat [[4]], Tensor.vec [5]] (by decide)

end DecideOnRationals

end Hebel
